import Mathlib

/-!
Verification of the `Terria` application-state class and the `SearchBox`
search widget of terriajs, against a shallow embedding of the TypeScript
source. Dynamic (`any`-typed) JSON values are embedded as the inductive
type `JVal`, with JavaScript truthiness and property-access semantics;
the observable model map is embedded as an association list; viewer
objects carry their runtime class so that `instanceof` checks are
expressible. External modules that the source imports but that are not
part of the sources (ModelReference, TerriaViewer, updateModelFromJson,
the urijs library) are modelled from the spec, each with a doc comment
saying so.
-/

/-- Embedding of a JavaScript/JSON dynamic value (`any` in the source).
The first constructor is JavaScript `undefined`, distinct from `null`.
Objects are field lists in literal order; a later binding for the same
key shadows an earlier one, as in a JavaScript object literal with
spreads. -/
inductive JVal where
  | undefined : JVal
  | null : JVal
  | bool (b : Bool) : JVal
  | num (n : Int) : JVal
  | str (s : String) : JVal
  | arr (elems : List JVal) : JVal
  | obj (fields : List (String × JVal)) : JVal

/-- JavaScript truthiness of a value (`if (x)`): `undefined`, `null`,
`false`, `0` and the empty string are falsy; objects and arrays are
always truthy. -/
def JVal.truthy : JVal → Bool
  | .undefined => false
  | .null => false
  | .bool b => b
  | .num n => n != 0
  | .str s => s != ""
  | .arr _ => true
  | .obj _ => true

/-- Whether the value is JavaScript `undefined` (for the source's strict
comparisons `x !== undefined`). -/
def JVal.isUndefined : JVal → Bool
  | .undefined => true
  | _ => false

/-- JavaScript property access `o[k]` on an object: the last binding for
`k` wins (object-literal semantics); a missing key, or access on a
non-object, yields `undefined`. -/
def JVal.get (v : JVal) (k : String) : JVal :=
  match v with
  | .obj fields => (fields.foldl (fun acc p => if p.1 = k then some p.2 else acc) none).getD .undefined
  | _ => .undefined

/-- JavaScript spread `...v` inside an object literal: the fields of an
object, and nothing for `undefined`/`null` (non-object spreads of the
kinds the source performs). -/
def JVal.spreadFields : JVal → List (String × JVal)
  | .obj fields => fields
  | _ => []

/-- JavaScript `xs.map(f)`: defined on arrays; on any other value the
call throws a `TypeError` (`.map is not a function`), embedded as an
`Except` error. -/
def JVal.jsMap (f : JVal → JVal) : JVal → Except String JVal
  | .arr elems => .ok (.arr (elems.map f))
  | _ => .error "TypeError: map is not a function"

/-- Modelled from the spec: `ModelReference` (src/Traits/ModelReference
is not among the source files) — a model id, either an ordinary id
string or the special removed sentinel that `ModelReference.isRemoved`
recognises. -/
inductive ModelReference where
  | strId (s : String) : ModelReference
  | removed : ModelReference
deriving DecidableEq

/-- Modelled from the spec: `ModelReference.isRemoved` — true exactly on
the removed sentinel. -/
def ModelReference.isRemoved : ModelReference → Bool
  | .removed => true
  | .strId _ => false

/-- Modelled from the spec: a catalog model (`BaseModel` of ./Model, not
among the source files): its `id` and its runtime class name, the part
the `Terria` model registry inspects. -/
structure BaseModel where
  id : ModelReference
  cls : String
deriving DecidableEq

/-- Modelled from the spec: a constructor (`Class<T>` of ../Core/Class)
is embedded as the decidable predicate "this value is an instance of
the class", which is what `instanceof` consults. -/
def ModelClass : Type := BaseModel → Bool

/-- Embedding of `instanceOf(type, instance)` (../Core/instanceOf):
`instance instanceof type`, which is false when the instance is
`undefined`. -/
def instanceOf (type : ModelClass) : Option BaseModel → Bool
  | some m => type m
  | none => false

/-- The observable model map `models` of `Terria`, embedded as an
association list keyed by model id. -/
def ModelMap : Type := List (ModelReference × BaseModel)

/-- `models.get(id)`. -/
def ModelMap.get (m : ModelMap) (id : ModelReference) : Option BaseModel :=
  (List.find? (fun p => p.1 == id) m).map (fun p => p.2)

/-- `models.has(id)`. -/
def ModelMap.has (m : ModelMap) (id : ModelReference) : Bool :=
  (ModelMap.get m id).isSome

/-- `models.set(id, model)`: binds `id`, replacing any previous binding. -/
def ModelMap.set (m : ModelMap) (id : ModelReference) (v : BaseModel) : ModelMap :=
  (id, v) :: List.filter (fun p => !(p.1 == id)) m

/-- The runtime class of the value held in `mainViewer`, for the
`instanceof Cesium` / `instanceof Leaflet` checks of the `cesium` and
`leaflet` getters. -/
inductive ViewerClass where
  | cesiumClass : ViewerClass
  | leafletClass : ViewerClass
  | terriaViewerClass : ViewerClass
deriving DecidableEq

/-- A map-rendering backend (`GlobeOrMap`): a Cesium globe, a Leaflet
map, or the do-nothing `NoViewer` backend (`new NoViewer(terria)`). -/
inductive GlobeOrMap where
  | cesiumMap : GlobeOrMap
  | leafletMap : GlobeOrMap
  | noViewer : GlobeOrMap
deriving DecidableEq

/-- Modelled from the spec: the value held in `Terria.mainViewer`
(`TerriaViewer` of ../ViewModels/TerriaViewer is not among the source
files): its runtime class, and its `currentViewer` property, which is a
map-rendering backend or `undefined`. -/
structure MainViewer where
  cls : ViewerClass
  currentViewer : Option GlobeOrMap
deriving DecidableEq

/-- The `Terria` application-state object: the observable model map, the
viewer reference, `appName`, the observable `userProperties` map, the
observable `stories` array, and the catalog group. The catalog group is
embedded as `catalogUpdates`, the ordered record of
`updateModelFromJson(catalog.group, stratum, json)` merges applied to
it; `fetchLog` records the URLs passed to `loadJson5`, in order. -/
structure Terria where
  models : ModelMap := []
  mainViewer : Option MainViewer := none
  appName : Option String := none
  userProperties : List (String × JVal) := []
  stories : JVal := .arr []
  catalogUpdates : List (String × JVal) := []
  fetchLog : List String := []

/-- Embedding of the `currentViewer` getter:
`(this.mainViewer && this.mainViewer.currentViewer) || new NoViewer(this)`;
a falsy (`undefined`) `mainViewer` or `currentViewer` falls through to a
fresh `NoViewer`. -/
def Terria.currentViewer (t : Terria) : GlobeOrMap :=
  match t.mainViewer with
  | some v =>
    match v.currentViewer with
    | some g => g
    | none => .noViewer
  | none => .noViewer

/-- Embedding of the `cesium` getter: `mainViewer` itself when it is
defined and an instance of `Cesium`, `undefined` otherwise. -/
def Terria.cesium (t : Terria) : Option MainViewer :=
  match t.mainViewer with
  | some v => if v.cls = ViewerClass.cesiumClass then some v else none
  | none => none

/-- Embedding of the `leaflet` getter: `mainViewer` itself when it is
defined and an instance of `Leaflet`, `undefined` otherwise. -/
def Terria.leaflet (t : Terria) : Option MainViewer :=
  match t.mainViewer with
  | some v => if v.cls = ViewerClass.leafletClass then some v else none
  | none => none

/-- Embedding of `Terria.getModelById(type, id)`: `undefined` for a
removed id; otherwise the model under `id` (the source's local
`model = this.models.get(id)`, inlined here) when
`instanceOf(type, model)` holds, and `undefined` otherwise. -/
def Terria.getModelById (t : Terria) (type : ModelClass) (id : ModelReference) : Option BaseModel :=
  if ModelReference.isRemoved id then
    none
  else if instanceOf type (ModelMap.get t.models id) then
    ModelMap.get t.models id
  else none

/-- Embedding of `Terria.addModel(model)`: a no-op for a removed id; a
thrown `RuntimeError` (the `Option String` component) when the map
already has the id, leaving the state untouched; otherwise the model is
bound under its id. -/
def Terria.addModel (t : Terria) (model : BaseModel) : Option String × Terria :=
  if ModelReference.isRemoved model.id then
    (none, t)
  else if ModelMap.has t.models model.id then
    (some "A model with the specified ID already exists.", t)
  else
    (none, { t with models := ModelMap.set t.models model.id model })

/-- Embedding of `Terria.getUserProperty(key)`: the body is
`return undefined;`, whatever `userProperties` holds. -/
def Terria.getUserProperty (_t : Terria) (_key : String) : Option JVal :=
  none

/-- An observable effect of the `SearchBox` React component on its
collaborators: notifying `onSearchTextChanged`, cancelling the pending
debounced call, invoking `onDoSearch`, or scheduling the debounced
search. -/
inductive SBAction where
  | searchTextChanged (v : String) : SBAction
  | cancelDebounce : SBAction
  | doSearch : SBAction
  | scheduleDebounced : SBAction
deriving DecidableEq

/-- Embedding of `SearchBox.removeDebounce()`:
`this.searchWithDebounce.cancel()`. -/
def SearchBox.removeDebounce : List SBAction :=
  [SBAction.cancelDebounce]

/-- Embedding of `SearchBox.search()`: `removeDebounce(); onDoSearch()`. -/
def SearchBox.search : List SBAction :=
  SearchBox.removeDebounce ++ [SBAction.doSearch]

/-- Embedding of `SearchBox.handleChange(event)` as the sequence of
effects it performs, given the current `searchText` prop and the event's
new value: notify `onSearchTextChanged(value)`, then either run
`search()` immediately (when `searchText` is empty) or schedule the
debounced search. -/
def SearchBox.handleChange (searchText value : String) : List SBAction :=
  if searchText.length = 0 then
    [SBAction.searchTextChanged value] ++ SearchBox.search
  else
    [SBAction.searchTextChanged value] ++ [SBAction.scheduleDebounced]

theorem String.length_zero_iff_empty (s : String) : s.length = 0 ↔ s = "" := by
  cases s with
  | mk data =>
    cases data with
    | nil => simp
    | cons c cs => simp [String.length, String.ext_iff]

/-- Claim C1: for every model whose id is not a removed `ModelReference`,
`Terria.addModel` throws a `RuntimeError` when the model map already has
an entry for `model.id`, leaving the map unchanged; when no entry
exists, afterwards the map binds `model.id` to the model. -/
theorem addModel_correct (t : Terria) (model : BaseModel)
    (h : ModelReference.isRemoved model.id = false) :
    (ModelMap.has t.models model.id = true →
      Terria.addModel t model = (some "A model with the specified ID already exists.", t)) ∧
    (ModelMap.has t.models model.id = false →
      (Terria.addModel t model).1 = none ∧
      ModelMap.get (Terria.addModel t model).2.models model.id = some model) := by
  constructor
  · intro hhas
    simp [Terria.addModel, h, hhas]
  · intro hhas
    simp [Terria.addModel, h, hhas, ModelMap.get, ModelMap.set, List.find?]

def model0 : BaseModel := { id := ModelReference.strId "m0", cls := "CatalogItem" }

def terria0 : Terria := {}

/-- Claim C1, witness: adding `model0` to an empty `Terria` binds its id. -/
theorem addModel_correct_witness :
    ModelMap.get (Terria.addModel terria0 model0).2.models model0.id = some model0 :=
  ((addModel_correct terria0 model0 rfl).2 rfl).2

/-- Claim C2: `Terria.getModelById` never throws (it is a total
function), returns `undefined` for a removed id, and otherwise returns
exactly the model registered under the id when that model is an
instance of the requested type, `undefined` in every other case. -/
theorem getModelById_correct (t : Terria) (type : ModelClass) (id : ModelReference) :
    (ModelReference.isRemoved id = true → Terria.getModelById t type id = none) ∧
    (∀ m : BaseModel, Terria.getModelById t type id = some m ↔
      ModelReference.isRemoved id = false ∧ ModelMap.get t.models id = some m ∧ type m = true) := by
  constructor
  · intro hrem
    simp [Terria.getModelById, hrem]
  · intro m
    cases hrem : ModelReference.isRemoved id with
    | true => simp [Terria.getModelById, hrem]
    | false =>
      cases hget : ModelMap.get t.models id with
      | none => simp [Terria.getModelById, hrem, hget, instanceOf]
      | some m' =>
        cases hty : type m' with
        | true =>
          simp only [Terria.getModelById, hrem, hget, instanceOf, hty, Bool.false_eq_true,
            if_false, if_true, Option.some.injEq] <;> aesop
        | false =>
          simp only [Terria.getModelById, hrem, hget, instanceOf, hty, Bool.false_eq_true,
            if_false, Option.some.injEq] <;> aesop

/-- Claim C3: the `currentViewer` getter never yields an absent value
(its embedding is total into `GlobeOrMap`): it returns
`mainViewer.currentViewer` when `mainViewer` is defined and its
`currentViewer` is truthy, and a `NoViewer` backend otherwise. -/
theorem currentViewer_never_absent (t : Terria) :
    (∀ v g, t.mainViewer = some v → v.currentViewer = some g → Terria.currentViewer t = g) ∧
    ((t.mainViewer = none ∨ ∃ v, t.mainViewer = some v ∧ v.currentViewer = none) →
      Terria.currentViewer t = GlobeOrMap.noViewer) := by
  constructor
  · intro v g hv hg
    simp [Terria.currentViewer, hv, hg]
  · intro h
    rcases h with h | ⟨v, hv, hg⟩
    · simp [Terria.currentViewer, h]
    · simp [Terria.currentViewer, hv, hg]

/-- Claim C6: the `cesium` getter returns `mainViewer` exactly when it
is defined and an instance of `Cesium`, and `undefined` otherwise;
symmetrically for the `leaflet` getter with `Leaflet`. -/
theorem cesium_leaflet_getters (t : Terria) :
    (∀ v, Terria.cesium t = some v ↔
      t.mainViewer = some v ∧ v.cls = ViewerClass.cesiumClass) ∧
    (∀ v, Terria.leaflet t = some v ↔
      t.mainViewer = some v ∧ v.cls = ViewerClass.leafletClass) := by
  constructor
  · intro v
    cases hmv : t.mainViewer with
    | none => simp [Terria.cesium, hmv]
    | some w =>
      by_cases hcls : w.cls = ViewerClass.cesiumClass <;>
        simp [Terria.cesium, hmv, hcls] <;> aesop
  · intro v
    cases hmv : t.mainViewer with
    | none => simp [Terria.leaflet, hmv]
    | some w =>
      by_cases hcls : w.cls = ViewerClass.leafletClass <;>
        simp [Terria.leaflet, hmv, hcls] <;> aesop

/-- Claim C9: `handleChange` first notifies `onSearchTextChanged` with
the event's new value; when the current `searchText` prop is empty it
then triggers the search immediately (cancelling the pending debounced
call and calling `onDoSearch`), and otherwise it only schedules the
debounced search. -/
theorem handleChange_correct (searchText value : String) :
    (SearchBox.handleChange searchText value).head? = some (SBAction.searchTextChanged value) ∧
    (searchText = "" →
      SearchBox.handleChange searchText value =
        [SBAction.searchTextChanged value, SBAction.cancelDebounce, SBAction.doSearch]) ∧
    (searchText ≠ "" →
      SearchBox.handleChange searchText value =
        [SBAction.searchTextChanged value, SBAction.scheduleDebounced]) := by
  refine ⟨?_, ?_, ?_⟩
  · by_cases h : searchText.length = 0 <;>
      simp [SearchBox.handleChange, SearchBox.search, SearchBox.removeDebounce, h]
  · intro h
    have hl : searchText.length = 0 := (String.length_zero_iff_empty searchText).mpr h
    simp [SearchBox.handleChange, SearchBox.search, SearchBox.removeDebounce, hl]
  · intro h
    have hl : ¬searchText.length = 0 := fun hc =>
      h ((String.length_zero_iff_empty searchText).mp hc)
    simp [SearchBox.handleChange, hl]

/-- Claim C10: `Terria.getUserProperty` returns `undefined` for every
key, whatever the `userProperties` map of the instance holds. -/
theorem getUserProperty_always_undefined (t : Terria) (key : String) :
    Terria.getUserProperty t key = none := rfl

/-- Availability of `window.localStorage`: available with its current
items, absent (`window.localStorage` is undefined), or an access that
throws (a SecurityError when third-party cookies are blocked and the
app is served in an iframe). -/
inductive LocalStorageAccess where
  | available (items : List (String × String)) : LocalStorageAccess
  | unavailable : LocalStorageAccess
  | throwsOnAccess : LocalStorageAccess

/-- `localStorage.getItem(k)`: the stored string, or `null` for a
missing key. -/
def lsGetItem (items : List (String × String)) (k : String) : Option String :=
  (List.find? (fun p => p.1 == k) items).map (fun p => p.2)

/-- `localStorage.setItem(k, v)`: binds `k`, replacing any previous
binding. -/
def lsSetItem (items : List (String × String)) (k v : String) : List (String × String) :=
  (k, v) :: List.filter (fun p => !(p.1 == k)) items

/-- The storage key `this.appName + "." + key`: JavaScript string
concatenation renders an undefined `appName` as the text "undefined". -/
def localPropKey (appName : Option String) (key : String) : String :=
  appName.getD "undefined" ++ "." ++ key

/-- A `string | boolean` argument of `setLocalProperty`, with its
JavaScript `toString()`. -/
inductive StrOrBool where
  | str (s : String) : StrOrBool
  | bool (b : Bool) : StrOrBool

/-- JavaScript `value.toString()` for a `string | boolean`. -/
def StrOrBool.jsToString : StrOrBool → String
  | .str s => s
  | .bool true => "true"
  | .bool false => "false"

/-- The `string | boolean | null` result of `getLocalProperty`. -/
inductive LocalPropValue where
  | nullVal : LocalPropValue
  | strVal (s : String) : LocalPropValue
  | boolVal (b : Bool) : LocalPropValue
deriving DecidableEq

/-- Embedding of `Terria.getLocalProperty(key)`: `null` when
`window.localStorage` is undefined or accessing it throws; otherwise
the item stored under `appName + "." + key`, with the strings "true"
and "false" coerced to the booleans, every other string returned as
itself, and `null` for a missing item. -/
def Terria.getLocalProperty (t : Terria) (ls : LocalStorageAccess) (key : String) :
    LocalPropValue :=
  match ls with
  | .unavailable => .nullVal
  | .throwsOnAccess => .nullVal
  | .available items =>
    match lsGetItem items (localPropKey t.appName key) with
    | some v =>
      if v = "true" then .boolVal true
      else if v = "false" then .boolVal false
      else .strVal v
    | none => .nullVal

/-- Embedding of `Terria.setLocalProperty(key, value)`: `false` when
`window.localStorage` is undefined or accessing it throws; otherwise it
stores `value.toString()` under `appName + "." + key` and returns
`true`. The second component is the storage after the call. -/
def Terria.setLocalProperty (t : Terria) (ls : LocalStorageAccess) (key : String)
    (value : StrOrBool) : Bool × LocalStorageAccess :=
  match ls with
  | .unavailable => (false, ls)
  | .throwsOnAccess => (false, ls)
  | .available items =>
    (true, .available (lsSetItem items (localPropKey t.appName key) value.jsToString))

/-- Claim C8: with localStorage available, a boolean written by
`setLocalProperty` reads back through `getLocalProperty` as the same
boolean, and a written string other than "true" and "false" reads back
as itself (those two strings are coerced to booleans on read); when
localStorage is unavailable or accessing it throws, `setLocalProperty`
returns `false` and `getLocalProperty` returns `null`. -/
theorem localProperty_roundtrip (t : Terria) (items : List (String × String)) (key : String) :
    (∀ b : Bool,
      Terria.getLocalProperty t
        (Terria.setLocalProperty t (.available items) key (.bool b)).2 key = .boolVal b) ∧
    (∀ s : String, s ≠ "true" → s ≠ "false" →
      Terria.getLocalProperty t
        (Terria.setLocalProperty t (.available items) key (.str s)).2 key = .strVal s) ∧
    (∀ ls : LocalStorageAccess, (ls = .unavailable ∨ ls = .throwsOnAccess) →
      (∀ value, (Terria.setLocalProperty t ls key value).1 = false) ∧
      Terria.getLocalProperty t ls key = .nullVal) := by
  refine ⟨?_, ?_, ?_⟩
  · intro b
    cases b <;>
      simp [Terria.getLocalProperty, Terria.setLocalProperty, lsGetItem, lsSetItem,
        StrOrBool.jsToString, List.find?]
  · intro s h1 h2
    simp [Terria.getLocalProperty, Terria.setLocalProperty, lsGetItem, lsSetItem,
      StrOrBool.jsToString, List.find?, h1, h2]
  · intro ls hls
    rcases hls with h | h <;> subst h <;>
      exact ⟨fun value => rfl, rfl⟩

/-- Whether one character list begins with another (helper for the
embedded string operations, kept kernel-reducible). -/
def charsStartWith : List Char → List Char → Bool
  | [], _ => true
  | _ :: _, [] => false
  | p :: ps, c :: cs => p == c && charsStartWith ps cs

/-- Whether one character list occurs inside another. -/
def charsContain (pat : List Char) : List Char → Bool
  | [] => charsStartWith pat []
  | c :: cs => charsStartWith pat (c :: cs) || charsContain pat cs

/-- JavaScript `s.toLowerCase()` (over the ASCII range the URLs use). -/
def jsToLowerCase (s : String) : String :=
  String.mk (s.toList.map (fun c => if 'A' ≤ c && c ≤ 'Z' then Char.ofNat (c.toNat + 32) else c))

/-- JavaScript `s.substring(start)`: the suffix from `start` (a negative
start clamps to 0, as `Nat` subtraction does at the call site). -/
def jsSubstringFrom (s : String) (start : Nat) : String :=
  String.mk (s.toList.drop start)

/-- Modelled from the spec: the urijs operation
`new URI(configUrl).filename("")` — the configuration file's base URI:
everything up to and including the last "/" of the URL, empty when the
URL has no "/". -/
def uriFilenameEmptied (u : String) : String :=
  String.mk (((u.toList.reverse).dropWhile (fun c => !(c == '/'))).reverse)

/-- Modelled from the spec: the urijs operation
`new URI(rel).absoluteTo(base).toString()`, for the simple URLs in
play: an already-absolute URL (one with a scheme, or starting with "/")
is kept, any other is appended to the base. -/
def absoluteTo (rel base : String) : String :=
  if charsContain (String.toList "://") rel.toList ||
      charsStartWith (String.toList "/") rel.toList then
    rel
  else base ++ rel

/-- The value `generateInitializationUrl` returns: either the fragment
object with fields `baseUri` and `initFragment`, or a plain JavaScript
string holding the resolved absolute URL. -/
inductive InitSource where
  | fragmentObj (baseUri : String) (initFragment : String) : InitSource
  | jsString (s : String) : InitSource

/-- Embedding of `generateInitializationUrl(baseUri, url)`: when the
last five characters of the lowercased URL are not ".json", a fragment
object carrying the base URI and the URL; otherwise the URL resolved
absolute to the base URI, as a string. (JavaScript
`substring(url.length - 5)` clamps a negative start to 0, as `Nat`
subtraction does here.) -/
def generateInitializationUrl (baseUri url : String) : InitSource :=
  if jsSubstringFrom (jsToLowerCase url) (url.length - 5) ≠ ".json" then
    .fragmentObj baseUri url
  else
    .jsString (absoluteTo url baseUri)

/-- Embedding of `buildInitUrlFromFragment(path, fragmentObject)`:
`new URI(path + fragmentObject.initFragment + ".json")`, resolved
against `fragmentObject.baseUri` when that is truthy (the base URI is a
URI object, hence always truthy). JavaScript property access on a
string value yields `undefined`, so a plain-string argument produces
the literal path + "undefined" + ".json", left unresolved because its
`baseUri` access is undefined, hence falsy. -/
def buildInitUrlFromFragment (path : String) (fragmentObject : InitSource) : String :=
  match fragmentObject with
  | .fragmentObj baseUri initFragment =>
    absoluteTo (path ++ initFragment ++ ".json") baseUri
  | .jsString _ =>
    path ++ "undefined" ++ ".json"

/-- Claim C7, evaluated at a failing input: for a fragment not ending
in ".json" the fetched URL is "init/" + url + ".json" resolved against
the configuration's base URI, as the claim states; but for a URL that
does end in ".json", `Terria.start` passes the plain string returned by
`generateInitializationUrl` straight to `buildInitUrlFromFragment`,
whose property accesses on that string yield `undefined`, so the
fetched URL is the unresolved literal "init/undefined.json" instead of
the URL resolved absolute to the base URI. -/
theorem initUrl_json_divergence :
    buildInitUrlFromFragment "init/"
        (generateInitializationUrl "http://example.com/" "simple") =
      absoluteTo ("init/" ++ "simple" ++ ".json") "http://example.com/" ∧
    buildInitUrlFromFragment "init/"
        (generateInitializationUrl "http://example.com/" "foo.json") =
      "init/undefined.json" ∧
    absoluteTo "foo.json" "http://example.com/" = "http://example.com/foo.json" ∧
    "init/undefined.json" ≠ "http://example.com/foo.json" := by
  refine ⟨?_, ?_, ?_, ?_⟩ <;> decide

/-- Modelled from the spec: the stratum id `CommonStrata.definition`
(./CommonStrata is not among the source files). -/
def CommonStrata.definition : String := "definition"

/-- Modelled from the spec: `updateModelFromJson(model, stratum, json)`
(./updateModelFromJson is not among the source files) merges the given
JSON into the catalog group at the given stratum; the embedding records
the merge on the catalog group's ordered update list. -/
def updateModelFromJson (stratum : String) (json : JVal) (t : Terria) : Terria :=
  { t with catalogUpdates := t.catalogUpdates ++ [(stratum, json)] }

/-- Record of a `loadJson5(url)` call on the embedding's fetch log; the
fetched value itself is supplied by the `fetch` environment. -/
def recordFetch (url : String) (t : Terria) : Terria :=
  { t with fetchLog := t.fetchLog ++ [url] }

/-- Embedding of the member-transformation arrow function inside
`Terria.loadMagdaConfig`: a member without truthy `aspects`, or without
truthy `aspects.terria`, maps to `undefined`; a member with truthy
`aspects.group` maps to a "magda-group" node whose definition combines
`terria.type`, the member's group members and the spread
`terria.definition`; every other member maps to a node with the
member's id and name, the terria type and the spread
`terria.definition`. -/
def magdaMemberToTerria (member : JVal) : JVal :=
  let aspects := member.get "aspects"
  if !aspects.truthy then
    .undefined
  else
    let terria := aspects.get "terria"
    if !terria.truthy then
      .undefined
    else if (aspects.get "group").truthy then
      .obj [("id", member.get "id"), ("name", member.get "name"),
        ("type", .str "magda-group"), ("url", .str "http://saas.terria.io"),
        ("groupId", member.get "id"),
        ("definition", .obj ([("type", terria.get "type"),
          ("members", (aspects.get "group").get "members")] ++
          (terria.get "definition").spreadFields))]
    else
      .obj ([("id", member.get "id"), ("name", member.get "name"),
        ("type", terria.get "type")] ++ (terria.get "definition").spreadFields)

/-- Embedding of `Terria.loadMagdaConfig(config)`: when
`aspects.group && aspects.group.members` is truthy, transform each
member by `magdaMemberToTerria` and merge the result as members into
the catalog group at the definition stratum; otherwise do nothing.
Mapping over a truthy non-array `members` throws, embedded as an
error. -/
def Terria.loadMagdaConfig (t : Terria) (config : JVal) : Except String Terria :=
  let aspects := config.get "aspects"
  if (aspects.get "group").truthy && ((aspects.get "group").get "members").truthy then
    match ((aspects.get "group").get "members").jsMap magdaMemberToTerria with
    | .ok members =>
      .ok (updateModelFromJson CommonStrata.definition (.obj [("members", members)]) t)
    | .error e => .error e
  else
    .ok t

/-- The init URL `Terria.start` builds for one entry of
`initializationUrls`. -/
def initUrlOf (baseUri url : String) : String :=
  buildInitUrlFromFragment "init/" (generateInitializationUrl baseUri url)

/-- Embedding of the per-init-source continuation inside `Terria.start`,
applied to the entries of `initializationUrls` in order (`when.all`
over the mapped promises): fetch the init JSON at the built URL; when
its `catalog` is defined, merge it as members into the catalog group at
the definition stratum; when its `stories` is defined, replace
`stories`. A non-string entry throws (its `toLowerCase` is not a
function), embedded as an error. -/
def applyInitSources (fetch : String → JVal) (baseUri : String) :
    Terria → List JVal → Except String Terria
  | t, [] => .ok t
  | t, u :: rest =>
    match u with
    | .str url =>
      let initUrl := initUrlOf baseUri url
      let t1 := recordFetch initUrl t
      let initData := fetch initUrl
      let t2 :=
        if !(initData.get "catalog").isUndefined then
          updateModelFromJson CommonStrata.definition
            (.obj [("members", initData.get "catalog")]) t1
        else t1
      let t3 :=
        if !(initData.get "stories").isUndefined then
          { t2 with stories := initData.get "stories" }
        else t2
      applyInitSources fetch baseUri t3 rest
    | _ => .error "TypeError: initializationUrl.toLowerCase is not a function"

/-- Embedding of `Terria.start(options)`: compute the base URI from the
config URL, fetch the configuration JSON (`fetch` is the resolved
`loadJson5` environment), dispatch to `loadMagdaConfig` when the
configuration has a truthy `aspects`, and otherwise fetch and apply
every entry of `initializationUrls`. Mapping over a missing or
non-array `initializationUrls` throws, embedded as an error. -/
def Terria.start (t : Terria) (fetch : String → JVal) (configUrl : String) :
    Except String Terria :=
  let baseUri := uriFilenameEmptied configUrl
  let t1 := recordFetch configUrl t
  let config := fetch configUrl
  if (config.get "aspects").truthy then
    Terria.loadMagdaConfig t1 config
  else
    match config.get "initializationUrls" with
    | .arr urls => applyInitSources fetch baseUri t1 urls
    | _ => .error "TypeError: initializationUrls.map is not a function"

/-- The catalog merges a run of init sources causes, as the claim states
them: one merge of the init's catalog as members at the definition
stratum, per init whose `catalog` is defined. -/
def specCatalogUpdates (fetch : String → JVal) (baseUri : String) (urls : List String) :
    List (String × JVal) :=
  urls.filterMap (fun url =>
    if !((fetch (initUrlOf baseUri url)).get "catalog").isUndefined then
      some (CommonStrata.definition,
        JVal.obj [("members", (fetch (initUrlOf baseUri url)).get "catalog")])
    else none)

/-- The final `stories` a run of init sources leaves, as the claim
states it: each init whose `stories` is defined replaces it. -/
def specStories (fetch : String → JVal) (baseUri : String) (urls : List String)
    (s0 : JVal) : JVal :=
  urls.foldl (fun acc url =>
    if !((fetch (initUrlOf baseUri url)).get "stories").isUndefined then
      (fetch (initUrlOf baseUri url)).get "stories"
    else acc) s0

theorem applyInitSources_spec (fetch : String → JVal) (baseUri : String) (urls : List String) :
    ∀ t : Terria, applyInitSources fetch baseUri t (urls.map JVal.str) =
      .ok { models := t.models, mainViewer := t.mainViewer, appName := t.appName,
            userProperties := t.userProperties,
            stories := specStories fetch baseUri urls t.stories,
            catalogUpdates := t.catalogUpdates ++ specCatalogUpdates fetch baseUri urls,
            fetchLog := t.fetchLog ++ urls.map (initUrlOf baseUri) } := by
  induction urls with
  | nil =>
    intro t
    simp [applyInitSources, specStories, specCatalogUpdates]
  | cons u rest ih =>
    intro t
    by_cases hc : ((fetch (initUrlOf baseUri u)).get "catalog").isUndefined = true <;>
      by_cases hs : ((fetch (initUrlOf baseUri u)).get "stories").isUndefined = true <;>
        simp [applyInitSources, recordFetch, updateModelFromJson, hc, hs, ih,
          specStories, specCatalogUpdates]

/-- Claim C4: `Terria.start` fetches the configuration JSON at
`configUrl` (the fetch log gains `configUrl`); a configuration with a
(truthy) `aspects` property is processed by `loadMagdaConfig`;
otherwise, for every entry of the configuration's
`initializationUrls`, the referenced init JSON is fetched at the built
init URL, its catalog (when defined) is merged as members into the
catalog group at the definition stratum, and its stories (when
defined) replace `Terria.stories` (the last defined one wins). -/
theorem start_correct (t : Terria) (fetch : String → JVal) (configUrl : String) :
    (((fetch configUrl).get "aspects").truthy = true →
      Terria.start t fetch configUrl =
        Terria.loadMagdaConfig (recordFetch configUrl t) (fetch configUrl)) ∧
    (∀ urls : List String,
      ((fetch configUrl).get "aspects").truthy = false →
      (fetch configUrl).get "initializationUrls" = JVal.arr (urls.map JVal.str) →
      Terria.start t fetch configUrl =
        .ok { models := t.models, mainViewer := t.mainViewer, appName := t.appName,
              userProperties := t.userProperties,
              stories := specStories fetch (uriFilenameEmptied configUrl) urls t.stories,
              catalogUpdates :=
                t.catalogUpdates ++
                  specCatalogUpdates fetch (uriFilenameEmptied configUrl) urls,
              fetchLog := (t.fetchLog ++ [configUrl]) ++
                urls.map (initUrlOf (uriFilenameEmptied configUrl)) }) := by
  constructor
  · intro h
    simp [Terria.start, h, recordFetch]
  · intro urls ha hi
    simp only [Terria.start, ha, Bool.false_eq_true, if_false, hi]
    rw [applyInitSources_spec fetch (uriFilenameEmptied configUrl) urls
      (recordFetch configUrl t)]
    simp [recordFetch]

/-- Claim C5: for a Magda configuration whose `aspects.group.members` is
present (an array, with `aspects.group` truthy), `loadMagdaConfig`
transforms each member and merges the transformed list as members into
the catalog group at the definition stratum; and the transformation
maps a member without (truthy) `aspects`, or without `aspects.terria`,
to `undefined`; a member with `aspects.group` to a "magda-group" node
whose id, name and groupId come from the member and whose definition
combines `terria.type`, the member's group members and the spread
`terria.definition`; and every other member to a node with the member's
id and name, the terria type and the spread `terria.definition`. -/
theorem loadMagdaConfig_member_mapping (t : Terria) (config : JVal) (ms : List JVal)
    (hgroup : ((config.get "aspects").get "group").truthy = true)
    (hmembers : ((config.get "aspects").get "group").get "members" = JVal.arr ms) :
    Terria.loadMagdaConfig t config =
      .ok (updateModelFromJson CommonStrata.definition
        (.obj [("members", JVal.arr (ms.map magdaMemberToTerria))]) t) ∧
    ∀ member ∈ ms,
      (((member.get "aspects").truthy = false ∨
          ((member.get "aspects").get "terria").truthy = false) →
        magdaMemberToTerria member = JVal.undefined) ∧
      ((member.get "aspects").truthy = true →
        ((member.get "aspects").get "terria").truthy = true →
        ((member.get "aspects").get "group").truthy = true →
        magdaMemberToTerria member =
          .obj [("id", member.get "id"), ("name", member.get "name"),
            ("type", .str "magda-group"), ("url", .str "http://saas.terria.io"),
            ("groupId", member.get "id"),
            ("definition", .obj ([("type", ((member.get "aspects").get "terria").get "type"),
              ("members", ((member.get "aspects").get "group").get "members")] ++
              (((member.get "aspects").get "terria").get "definition").spreadFields))]) ∧
      ((member.get "aspects").truthy = true →
        ((member.get "aspects").get "terria").truthy = true →
        ((member.get "aspects").get "group").truthy = false →
        magdaMemberToTerria member =
          .obj ([("id", member.get "id"), ("name", member.get "name"),
            ("type", ((member.get "aspects").get "terria").get "type")] ++
            (((member.get "aspects").get "terria").get "definition").spreadFields)) := by
  constructor
  · have harr : JVal.truthy (JVal.arr ms) = true := rfl
    simp [Terria.loadMagdaConfig, hgroup, hmembers, harr, JVal.jsMap]
  · intro member _
    refine ⟨?_, ?_, ?_⟩
    · intro h
      rcases h with h | h
      · simp [magdaMemberToTerria, h]
      · by_cases ha : (member.get "aspects").truthy = true <;>
          simp [magdaMemberToTerria, ha, h]
    · intro h1 h2 h3
      simp [magdaMemberToTerria, h1, h2, h3]
    · intro h1 h2 h3
      simp [magdaMemberToTerria, h1, h2, h3]

def memberNoAspects : JVal := .obj [("id", .str "m-a"), ("name", .str "A")]

def memberGroup : JVal :=
  .obj [("id", .str "m-g"), ("name", .str "G"),
    ("aspects", .obj [("terria", .obj [("type", .str "group"),
        ("definition", .obj [("description", .str "d")])]),
      ("group", .obj [("members", .arr [])])])]

def memberItem : JVal :=
  .obj [("id", .str "m-i"), ("name", .str "I"),
    ("aspects", .obj [("terria", .obj [("type", .str "csv"),
        ("definition", .obj [("url", .str "u")])])])]

def magdaConfig0 : JVal :=
  .obj [("aspects", .obj [("group",
    .obj [("members", .arr [memberNoAspects, memberGroup, memberItem])])])]

/-- Claim C5, witness: a concrete Magda configuration with one member of
each kind is merged as its transformed members. -/
theorem loadMagdaConfig_member_mapping_witness :
    Terria.loadMagdaConfig terria0 magdaConfig0 =
      .ok (updateModelFromJson CommonStrata.definition
        (.obj [("members", JVal.arr
          ([memberNoAspects, memberGroup, memberItem].map magdaMemberToTerria))]) terria0) :=
  (loadMagdaConfig_member_mapping terria0 magdaConfig0
    [memberNoAspects, memberGroup, memberItem] rfl rfl).1
